import Mathlib

/-!
Shallow embedding of the septic-monitor service (Go): the Reading store
(`saveLevelData`, `getLatestLevelData`), the threshold guard
(`checkAndNotify`) and the two HTTP handlers (`handleSaveLevelData`,
`handleGetLevelData`), together with theorems settling the spec claims.
Timestamps are modelled as natural numbers (seconds since the zero time;
Go's zero `time.Time` is the value 0, `time.Hour` is 3600).
-/

namespace Septic

/-- Go `float64` values, modelled as finite rationals plus the three
non-finite values. No floating-point rounding enters any claim: levels are
only stored, compared against a threshold, and formatted. -/
inductive GoFloat where
  | finite (q : ℚ)
  | nan
  | posInf
  | negInf
deriving DecidableEq, Repr

/-- Whether a `GoFloat` is a finite number (not NaN and not an infinity). -/
def GoFloat.isFinite : GoFloat → Bool
  | .finite _ => true
  | _ => false

/-- Go's `<` on `float64`: every comparison with NaN is false; the
infinities compare below/above all finite values. -/
def GoFloat.lt : GoFloat → GoFloat → Bool
  | .nan, _ => false
  | _, .nan => false
  | .finite a, .finite b => decide (a < b)
  | .negInf, .negInf => false
  | .negInf, _ => true
  | _, .negInf => false
  | .posInf, _ => false
  | .finite _, .posInf => true

/-- Left-pad a string with zeros to the given width. -/
def padLeftZeros (s : String) (w : Nat) : String :=
  String.mk (List.replicate (w - s.length) '0') ++ s

/-- Fixed-point rendering of a nonnegative rational with `p` digits after
the decimal point, rounding half away from zero: models Go's
`fmt.Sprintf` `%f` style verb on a nonnegative value. -/
def goFormatFPos (p : Nat) (q : ℚ) : String :=
  let scaled : Nat := (2 * q.num.toNat * 10 ^ p + q.den) / (2 * q.den)
  toString (scaled / 10 ^ p) ++ "." ++ padLeftZeros (toString (scaled % 10 ^ p)) p

/-- Go's `%f`-style formatting with `p` digits of precision (the source
uses `%f`, precision 6, in the ingestion response and `%.2f` in the alert
message). -/
def goFormatF (p : Nat) : GoFloat → String
  | .nan => "NaN"
  | .posInf => "+Inf"
  | .negInf => "-Inf"
  | .finite q => if q < 0 then "-" ++ goFormatFPos p (-q) else goFormatFPos p q

/-- One row of the `level_data` table: `id INTEGER PRIMARY KEY
AUTOINCREMENT, level REAL NOT NULL, created_at DATETIME`. -/
structure Reading where
  id : Nat
  level : GoFloat
  created_at : Nat
deriving DecidableEq, Repr

/-- The `level_data` table: rows in insertion (rowid) order, plus the next
id the AUTOINCREMENT column will assign (SQLite starts at 1). -/
structure Store where
  rows : List Reading
  nextId : Nat
deriving DecidableEq, Repr

/-- The freshly created table. -/
def emptyStore : Store := ⟨[], 1⟩

/-- Function `saveLevelData` (src/main.go lines 62-75): prepares
`INSERT INTO level_data (level, created_at) VALUES (?, ?)` and executes it
with the given level and `time.Now()`. The function itself performs no
validation; what happens to the value is decided by SQLite's binding: a
NaN double is converted to SQL NULL when bound, and the `level REAL NOT
NULL` column then rejects the insert with a constraint error — `Exec`
fails and no row is created. The infinities bind as REAL values and are
inserted like any finite level. `dbOk` models whether the underlying
SQLite write succeeds for a bindable value (its failure is environmental,
surfaced as the wrapped exec error). -/
def saveLevelData (dbOk : Bool) (level : GoFloat) (now : Nat) (s : Store) :
    Except String Store :=
  if level = .nan then
    .error "failed to insert data: NOT NULL constraint failed: level_data.level"
  else if dbOk then .ok ⟨s.rows ++ [⟨s.nextId, level, now⟩], s.nextId + 1⟩
  else .error "failed to insert data"

/-- Keep `best` unless `row` has a strictly larger `created_at`: one step
of scanning the table for `ORDER BY created_at DESC LIMIT 1`. -/
def pickLater (best row : Reading) : Reading :=
  if best.created_at < row.created_at then row else best

/-- The row `SELECT level FROM level_data ORDER BY created_at DESC LIMIT 1`
returns, over a table scan in rowid order. The query orders by
`created_at` only — it has no `id` tiebreak — so among rows sharing the
maximal `created_at` the first-scanned (smallest id) row is kept, matching
a stable descending sort of the scan; SQLite itself leaves the relative
order of equal keys unspecified. -/
def latestRow (rows : List Reading) : Option Reading :=
  match rows with
  | [] => none
  | r :: rs => some (rs.foldl pickLater r)

/-- Function `getLatestLevelData` (src/main.go lines 154-170): runs the query above
and returns the single row's level, or the error `no level data found`
when the table is empty. -/
def getLatestLevelData (s : Store) : Except String GoFloat :=
  match latestRow s.rows with
  | some r => .ok r.level
  | none => .error "no level data found"

/-- The guard's shared mutable state: the `lastNotifiedAt time.Time`
package variable. Go's zero `time.Time` is modelled by 0, so the freshly
started process has `lastNotifiedAt = 0`. -/
structure GuardState where
  lastNotifiedAt : Nat
deriving DecidableEq, Repr

/-- The `LEVEL_THRESHOLD` environment value as `checkAndNotify` classifies
it: empty/absent (`unset`), present but rejected by `strconv.ParseFloat`
(`invalid`), or parsed to a float (`valid`). -/
inductive ThresholdCfg where
  | unset
  | invalid
  | valid (t : GoFloat)
deriving DecidableEq, Repr

/-- The observable outcome of one `checkAndNotify` run: no `sms.Send` call
at all, or a call that succeeded, or a call that failed. -/
inductive Decision where
  | skip
  | notifySent (msg : String)
  | notifyFailed (msg : String)
deriving DecidableEq, Repr

/-- Whether the decision dispatched a notification that succeeded. -/
def Decision.isSent : Decision → Bool
  | .notifySent _ => true
  | _ => false

/-- The SMS text built at src/main.go line 106:
`Alert: Level %.2f has reached the threshold of %.2f`. -/
def alertMessage (level threshold : GoFloat) : String :=
  "Alert: Level " ++ goFormatF 2 level ++ " has reached the threshold of "
    ++ goFormatF 2 threshold

/-- Function `checkAndNotify` (src/main.go lines 78-114). The mutex is locked on
entry and released by `defer` on return, so the whole body — threshold
lookup, level check, cooldown check, the `sms.Send` call and the
`lastNotifiedAt` update — is one critical section; concurrent invocations
serialize, which is why the function is modelled as a single atomic step
on `GuardState`. `sendOk` models the outcome of the external `sms.Send`
call; `lastNotifiedAt = time.Now()` runs only after `sms.Send` returns
without error. `time.Since(lastNotifiedAt) < time.Hour` is
`now - lastNotifiedAt < 3600`; when the clock reads earlier than the
stored timestamp the Go difference is negative and the Nat difference is
0, and both are `< 3600`, so truncated subtraction decides identically. -/
def checkAndNotify (cfg : ThresholdCfg) (sendOk : Bool) (level : GoFloat)
    (now : Nat) (st : GuardState) : GuardState × Decision :=
  match cfg with
  | .unset => (st, .skip)
  | .invalid => (st, .skip)
  | .valid threshold =>
    if GoFloat.lt level threshold then (st, .skip)
    else if now - st.lastNotifiedAt < 3600 then (st, .skip)
    else if sendOk then
      ({ lastNotifiedAt := now }, .notifySent (alertMessage level threshold))
    else (st, .notifyFailed (alertMessage level threshold))

/-- One serialized `checkAndNotify` invocation: the reading's level, the
wall-clock time at which the goroutine acquires the mutex, and whether its
`sms.Send` call would succeed. -/
structure Eval where
  level : GoFloat
  time : Nat
  sendOk : Bool
deriving DecidableEq, Repr

/-- A batch of concurrent `checkAndNotify` goroutines, in the order the
mutex admits them (the mutex covers each whole invocation, so any
concurrent execution is equivalent to some such sequence). -/
def runEvals (cfg : ThresholdCfg) (st : GuardState) :
    List Eval → GuardState × List Decision
  | [] => (st, [])
  | e :: es =>
    let r := checkAndNotify cfg e.sendOk e.level e.time st
    let rest := runEvals cfg r.1 es
    (rest.1, r.2 :: rest.2)

/-- Number of successfully dispatched notifications in a decision list. -/
def countSent (ds : List Decision) : Nat :=
  (ds.filter Decision.isSent).length

/-- The times at which a batch of serialized invocations successfully
dispatched a notification. -/
def runSentTimes (cfg : ThresholdCfg) (st : GuardState) : List Eval → List Nat
  | [] => []
  | e :: es =>
    let r := checkAndNotify cfg e.sendOk e.level e.time st
    if r.2.isSent then e.time :: runSentTimes cfg r.1 es
    else runSentTimes cfg r.1 es

/-- HTTP methods as the handlers distinguish them. -/
inductive Method where
  | get
  | post
  | other
deriving DecidableEq, Repr

/-- The decoded `POST /api` body struct (`Request`): one `level` field. -/
structure Request where
  level : GoFloat
deriving DecidableEq, Repr

/-- The success response struct (`Response`): `status` and `message`. -/
structure Response where
  status : String
  message : String
deriving DecidableEq, Repr

/-- Request bodies as `encoding/json.Decoder.Decode` distinguishes them:
not valid JSON at all; an object carrying a numeric `level`; a valid
object without the field; or `level: null`. -/
inductive Body where
  | malformed
  | withLevel (l : GoFloat)
  | emptyObj
  | nullLevel
deriving DecidableEq, Repr

/-- Decoding via `json.NewDecoder(r.Body).Decode(&req)`: malformed JSON errors; a
missing `level` field and an explicit `null` both leave the struct's zero
value 0 in place without error. -/
def decodeRequest : Body → Except String Request
  | .malformed => .error "invalid JSON"
  | .withLevel l => .ok ⟨l⟩
  | .emptyObj => .ok ⟨.finite 0⟩
  | .nullLevel => .ok ⟨.finite 0⟩

/-- What a handler run produces: the HTTP status, the response body, the
store afterwards, and the level handed to the detached
`go checkAndNotify(req.Level)` goroutine (`none` when no goroutine was
spawned). -/
structure HandlerResult where
  status : Nat
  body : Except String Response
  store : Store
  guardSpawned : Option GoFloat
deriving Repr

/-- Handler `handleSaveLevelData` (src/main.go lines 116-152): reject non-POST
with 405; decode the body, rejecting malformed JSON with 400 before any
store access; save, turning a store failure into 500; then spawn
`checkAndNotify` and answer 200 with
`Received and saved: %f` (precision 6). Error responses are the
`http.Error` texts, carried on the `Except.error` side. -/
def handleSaveLevelData (method : Method) (reqBody : Body) (dbOk : Bool)
    (now : Nat) (s : Store) : HandlerResult :=
  if method ≠ .post then ⟨405, .error "Method not allowed", s, none⟩
  else
    match decodeRequest reqBody with
    | .error _ => ⟨400, .error "Invalid JSON", s, none⟩
    | .ok req =>
      match saveLevelData dbOk req.level now s with
      | .error _ => ⟨500, .error "Failed to save data", s, none⟩
      | .ok s' =>
        ⟨200, .ok ⟨"success", "Received and saved: " ++ goFormatF 6 req.level⟩,
          s', some req.level⟩

/-- Handler `handleGetLevelData` (src/main.go lines 172-190): reject non-GET with
405; on any `getLatestLevelData` error answer 500 with
`Failed to get level data`; otherwise 200 with the bare JSON number. -/
def handleGetLevelData (method : Method) (s : Store) :
    Nat × Except String GoFloat :=
  if method ≠ .get then (405, .error "Method not allowed")
  else
    match getLatestLevelData s with
    | .error _ => (500, .error "Failed to get level data")
    | .ok l => (200, .ok l)

/-- A sequence of successful `POST /api` ingestions (levels with the
`time.Now()` each one stores), applied to a store in order. -/
def applyPosts : List (GoFloat × Nat) → Store → Store
  | [], s => s
  | (l, t) :: ps, s =>
    applyPosts ps (handleSaveLevelData .post (.withLevel l) true t s).store

/-- The scan step keeps either its accumulator or the new row. -/
theorem pickLater_eq_or (b r : Reading) : pickLater b r = b ∨ pickLater b r = r := by
  unfold pickLater
  split
  · exact Or.inr rfl
  · exact Or.inl rfl

/-- The row the scan keeps is one of the scanned rows. -/
theorem foldl_pickLater_mem : ∀ (rs : List Reading) (r : Reading),
    rs.foldl pickLater r ∈ r :: rs := by
  intro rs
  induction rs with
  | nil => intro r; simp
  | cons a as ih =>
    intro r
    have h := ih (pickLater r a)
    simp only [List.foldl_cons]
    rcases List.mem_cons.mp h with heq | hmem
    · rcases pickLater_eq_or r a with h2 | h2 <;> rw [heq, h2] <;> simp
    · exact List.mem_cons_of_mem r (List.mem_cons_of_mem a hmem)

/-- The row the scan keeps has the maximal `created_at` of the scanned rows. -/
theorem foldl_pickLater_le : ∀ (rs : List Reading) (r x : Reading),
    x ∈ r :: rs → x.created_at ≤ (rs.foldl pickLater r).created_at := by
  intro rs
  induction rs with
  | nil =>
    intro r x hx
    simp only [List.mem_singleton] at hx
    rw [hx]
    simp
  | cons a as ih =>
    intro r x hx
    simp only [List.foldl_cons]
    rcases List.mem_cons.mp hx with rfl | hx'
    · have h1 : x.created_at ≤ (pickLater x a).created_at := by
        unfold pickLater; split <;> omega
      exact h1.trans (ih (pickLater x a) _ (List.mem_cons_self _ _))
    · rcases List.mem_cons.mp hx' with rfl | hx''
      · have h1 : x.created_at ≤ (pickLater r x).created_at := by
          unfold pickLater; split <;> omega
        exact h1.trans (ih (pickLater r x) _ (List.mem_cons_self _ _))
      · exact ih (pickLater r a) x (List.mem_cons_of_mem _ hx'')

/-- Appending a row with a strictly larger `created_at` than every
existing row makes it the row the latest-query returns. -/
theorem latestRow_append_gt (rows : List Reading) (x : Reading)
    (h : ∀ r ∈ rows, r.created_at < x.created_at) :
    latestRow (rows ++ [x]) = some x := by
  cases rows with
  | nil => rfl
  | cons r rs =>
    simp only [latestRow, List.cons_append, List.foldl_append, List.foldl_cons,
      List.foldl_nil]
    have hmem := foldl_pickLater_mem rs r
    have hlt : (rs.foldl pickLater r).created_at < x.created_at := h _ hmem
    simp [pickLater, hlt]

/-- While the guard is still cooling (the clock reads less than one hour
past `lastNotifiedAt`), every evaluation skips and leaves the state
unchanged, whatever the config, the level and the send outcome. -/
theorem checkAndNotify_skip_of_recent (cfg : ThresholdCfg) (b : Bool)
    (l : GoFloat) (now : Nat) (st : GuardState)
    (h : now < st.lastNotifiedAt + 3600) :
    checkAndNotify cfg b l now st = (st, .skip) := by
  have hsub : now - st.lastNotifiedAt < 3600 := by omega
  cases cfg with
  | unset => rfl
  | invalid => rfl
  | valid thr =>
    simp [checkAndNotify, hsub]

/-- When the level is at or above the threshold, the cooldown has elapsed
and the send succeeds, the evaluation dispatches the alert and records the
current time. -/
theorem checkAndNotify_fire_true (thr l : GoFloat) (now : Nat) (st : GuardState)
    (hlt : GoFloat.lt l thr = false) (hcd : st.lastNotifiedAt + 3600 ≤ now) :
    checkAndNotify (.valid thr) true l now st
      = (⟨now⟩, .notifySent (alertMessage l thr)) := by
  have hsub : ¬ (now - st.lastNotifiedAt < 3600) := by omega
  simp [checkAndNotify, hlt, hsub]

/-- When the level is at or above the threshold, the cooldown has elapsed
and the send fails, the evaluation leaves the state unchanged. -/
theorem checkAndNotify_fire_false (thr l : GoFloat) (now : Nat) (st : GuardState)
    (hlt : GoFloat.lt l thr = false) (hcd : st.lastNotifiedAt + 3600 ≤ now) :
    checkAndNotify (.valid thr) false l now st
      = (st, .notifyFailed (alertMessage l thr)) := by
  have hsub : ¬ (now - st.lastNotifiedAt < 3600) := by omega
  simp [checkAndNotify, hlt, hsub]

/-- Any evaluation either dispatched successfully — and then recorded the
evaluation time, which lay at least one hour past the previous record — or
left the state untouched. -/
theorem checkAndNotify_state_cases (cfg : ThresholdCfg) (b : Bool)
    (l : GoFloat) (now : Nat) (st : GuardState) :
    ((checkAndNotify cfg b l now st).2.isSent = true
        ∧ (checkAndNotify cfg b l now st).1 = ⟨now⟩
        ∧ st.lastNotifiedAt + 3600 ≤ now)
    ∨ ((checkAndNotify cfg b l now st).2.isSent = false
        ∧ (checkAndNotify cfg b l now st).1 = st) := by
  cases cfg with
  | unset => exact Or.inr ⟨rfl, rfl⟩
  | invalid => exact Or.inr ⟨rfl, rfl⟩
  | valid thr =>
    by_cases hlt : GoFloat.lt l thr = true
    · exact Or.inr (by simp [checkAndNotify, hlt, Decision.isSent])
    · by_cases hcd : now - st.lastNotifiedAt < 3600
      · exact Or.inr (by simp [checkAndNotify, hlt, hcd, Decision.isSent])
      · cases b with
        | false => exact Or.inr (by simp [checkAndNotify, hlt, hcd, Decision.isSent])
        | true =>
          refine Or.inl ⟨?_, ?_, by omega⟩
          · simp [checkAndNotify, hlt, hcd, Decision.isSent]
          · simp [checkAndNotify, hlt, hcd]

/-- A batch whose every invocation happens while the guard is cooling
dispatches nothing and leaves the state unchanged. -/
theorem runEvals_skips (cfg : ThresholdCfg) (st : GuardState) (evals : List Eval)
    (h : ∀ e ∈ evals, e.time < st.lastNotifiedAt + 3600) :
    runEvals cfg st evals = (st, evals.map fun _ => Decision.skip) := by
  induction evals with
  | nil => rfl
  | cons e es ih =>
    have h1 : e.time < st.lastNotifiedAt + 3600 := h e (List.mem_cons_self e es)
    have hrec := ih fun e' he' => h e' (List.mem_cons_of_mem e he')
    simp only [runEvals,
      checkAndNotify_skip_of_recent cfg e.sendOk e.level e.time st h1, hrec,
      List.map_cons]

/-- A list of skip decisions contains no dispatched notification. -/
theorem countSent_map_skip {α : Type} (l : List α) :
    countSent (l.map fun _ => Decision.skip) = 0 := by
  induction l with
  | nil => rfl
  | cons a l ih =>
    simp only [List.map_cons, countSent, List.filter_cons, Decision.isSent,
      Bool.false_eq_true, if_false]
    exact ih

/-- Every successful dispatch in a batch happens at least one hour past
the `lastNotifiedAt` the batch started from. -/
theorem runSentTimes_lb (cfg : ThresholdCfg) : ∀ (evals : List Eval)
    (st : GuardState) (t : Nat),
    t ∈ runSentTimes cfg st evals → st.lastNotifiedAt + 3600 ≤ t := by
  intro evals
  induction evals with
  | nil =>
    intro st t ht
    simp [runSentTimes] at ht
  | cons e es ih =>
    intro st t ht
    simp only [runSentTimes] at ht
    rcases checkAndNotify_state_cases cfg e.sendOk e.level e.time st with
      ⟨hs, hst, hcd⟩ | ⟨hs, hst⟩
    · rw [if_pos hs, hst] at ht
      rcases List.mem_cons.mp ht with rfl | ht'
      · exact hcd
      · have h2 := ih ⟨e.time⟩ t ht'
        simp only at h2
        omega
    · rw [if_neg (by simp [hs]), hst] at ht
      exact ih st t ht

/-- Successive successful dispatches of one batch are at least one hour
apart, whatever the config, the batch and the starting state. -/
theorem runSentTimes_chain (cfg : ThresholdCfg) : ∀ (evals : List Eval)
    (st : GuardState),
    List.Chain' (fun a b => a + 3600 ≤ b) (runSentTimes cfg st evals) := by
  intro evals
  induction evals with
  | nil => intro st; simp [runSentTimes]
  | cons e es ih =>
    intro st
    simp only [runSentTimes]
    rcases checkAndNotify_state_cases cfg e.sendOk e.level e.time st with
      ⟨hs, hst, _⟩ | ⟨hs, hst⟩
    · rw [if_pos hs, hst]
      refine List.chain'_cons'.mpr ⟨?_, ih ⟨e.time⟩⟩
      intro y hy
      have h2 := runSentTimes_lb cfg es ⟨e.time⟩ y (List.mem_of_mem_head? hy)
      simpa using h2
    · rw [if_neg (by simp [hs]), hst]
      exact ih st

/-- A finite level is not the NaN value. -/
theorem isFinite_ne_nan (l : GoFloat) (h : l.isFinite = true) : l ≠ .nan :=
  fun he => by rw [he] at h; exact absurd h (by decide)

/-- The store a successful ingestion of a bindable (non-NaN) `level` at
time `t` leaves behind: the old rows plus one appended row carrying the
next id. -/
theorem post_store (l : GoFloat) (t : Nat) (s : Store) (hl : l ≠ .nan) :
    (handleSaveLevelData .post (.withLevel l) true t s).store
      = ⟨s.rows ++ [⟨s.nextId, l, t⟩], s.nextId + 1⟩ := by
  simp [handleSaveLevelData, decodeRequest, saveLevelData, hl]

/-- After ingesting a bindable level at a time strictly later than every
stored row's `created_at`, the latest-query returns exactly that level. -/
theorem getLatest_after_post (l : GoFloat) (t : Nat) (s : Store)
    (hl : l ≠ .nan) (h : ∀ r ∈ s.rows, r.created_at < t) :
    getLatestLevelData (handleSaveLevelData .post (.withLevel l) true t s).store
      = .ok l := by
  rw [post_store l t s hl]
  simp only [getLatestLevelData]
  rw [latestRow_append_gt s.rows ⟨s.nextId, l, t⟩ (fun r hr => h r hr)]

/-- A GET against a store whose latest-query succeeds answers 200 with
that level. -/
theorem handleGet_ok (s : Store) (l : GoFloat)
    (h : getLatestLevelData s = .ok l) :
    handleGetLevelData .get s = (200, .ok l) := by
  simp [handleGetLevelData, h]

/-- After a sequence of successful ingestions at strictly increasing
times, all later than every preexisting row, the latest-query returns the
last ingested level. -/
theorem getLatest_applyPosts :
    ∀ (posts : List (GoFloat × Nat)) (s : Store),
      (∀ p ∈ posts, p.1 ≠ GoFloat.nan) →
      List.Pairwise (fun a b => a.2 < b.2) posts →
      (∀ r ∈ s.rows, ∀ p ∈ posts, r.created_at < p.2) →
      ∀ lastP, posts.getLast? = some lastP →
      getLatestLevelData (applyPosts posts s) = .ok lastP.1 := by
  intro posts
  induction posts with
  | nil =>
    intro s _ _ _ lastP h
    simp at h
  | cons p ps ih =>
    obtain ⟨l, t⟩ := p
    intro s hnn hinc hrows lastP hlast
    have hl : l ≠ GoFloat.nan := hnn (l, t) (List.mem_cons_self _ _)
    rcases List.pairwise_cons.mp hinc with ⟨hhead, htail⟩
    cases ps with
    | nil =>
      have hp : (l, t) = lastP := by simpa using hlast
      simp only [applyPosts]
      rw [← hp]
      exact getLatest_after_post l t s hl
        (fun r hr => hrows r hr (l, t) (List.mem_cons_self _ _))
    | cons q qs =>
      simp only [applyPosts]
      refine ih _ (fun p' hp' => hnn p' (List.mem_cons_of_mem _ hp')) htail ?_
        lastP ?_
      · intro r hr p' hp'
        rw [post_store l t s hl] at hr
        rcases List.mem_append.mp hr with hold | hnew
        · exact hrows r hold p' (List.mem_cons_of_mem _ hp')
        · have hr2 : r = ⟨s.nextId, l, t⟩ := by simpa using hnew
          rw [hr2]
          exact hhead p' hp'
      · simpa [List.getLast?_cons_cons] using hlast

/-- C1 (counterexample): at threshold 10, level 12, evaluation time 4000
with the guard never having notified (state 0, cooldown elapsed), a failed
send leaves `lastNotifiedAt` at 0 — not the decision time 4000 the claim
requires: the timestamp is not recorded at decision time, and a failed
delivery does not consume the cooldown window. -/
theorem c1_counterexample :
    GoFloat.lt (.finite 12) (.finite 10) = false
    ∧ (⟨0⟩ : GuardState).lastNotifiedAt + 3600 ≤ 4000
    ∧ (checkAndNotify (.valid (.finite 10)) false (.finite 12) 4000
        ⟨0⟩).1.lastNotifiedAt = 0
    ∧ (0 : Nat) ≠ 4000 :=
  ⟨rfl, by decide, rfl, by omega⟩

/-- C1 (amended): in every evaluation that decides to notify (level at or
above threshold, cooldown elapsed), `lastNotifiedAt` is written only after
the `sms.Send` call returns success; when the call fails the state is left
unchanged, so a failed delivery does not consume the cooldown window. -/
theorem c1_record_after_send (thr l : GoFloat) (now : Nat) (st : GuardState)
    (hlt : GoFloat.lt l thr = false) (hcd : st.lastNotifiedAt + 3600 ≤ now) :
    (checkAndNotify (.valid thr) true l now st).1 = ⟨now⟩
    ∧ (checkAndNotify (.valid thr) false l now st).1 = st
    ∧ (checkAndNotify (.valid thr) false l now st).2
        = .notifyFailed (alertMessage l thr) := by
  rw [checkAndNotify_fire_true thr l now st hlt hcd,
    checkAndNotify_fire_false thr l now st hlt hcd]
  exact ⟨rfl, rfl, rfl⟩

/-- C1 (witness): the amended behavior at threshold 10, level 12, time
4000 from the initial guard state. -/
theorem c1_witness :
    (checkAndNotify (.valid (.finite 10)) true (.finite 12) 4000 ⟨0⟩).1 = ⟨4000⟩
    ∧ (checkAndNotify (.valid (.finite 10)) false (.finite 12) 4000 ⟨0⟩).1 = ⟨0⟩
    ∧ (checkAndNotify (.valid (.finite 10)) false (.finite 12) 4000 ⟨0⟩).2
        = .notifyFailed (alertMessage (.finite 12) (.finite 10)) :=
  c1_record_after_send (.finite 10) (.finite 12) 4000 ⟨0⟩ rfl (by decide)

/-- C2 (counterexample): the guarded state transition of one evaluation
differs according to the outcome of the `sms.Send` call (threshold 10,
level 12, time 5000, initial state): the critical section therefore
contains the outbound Notifier call, contradicting the claim that the
lock does not cover it — the mutex is locked on entry and released by
`defer` only on return, after `sms.Send`. -/
theorem c2_counterexample :
    (checkAndNotify (.valid (.finite 10)) true (.finite 12) 5000 ⟨0⟩).1 = ⟨5000⟩
    ∧ (checkAndNotify (.valid (.finite 10)) false (.finite 12) 5000 ⟨0⟩).1 = ⟨0⟩
    ∧ (⟨5000⟩ : GuardState) ≠ (⟨0⟩ : GuardState) :=
  ⟨rfl, rfl, by decide⟩

/-- C2 (amended): any number of concurrent above-threshold ingestions
whose evaluations all fall inside one cooldown window, with the cooldown
elapsed when the window opens and sends succeeding, dispatch exactly one
notification — because the mutex covers each entire `checkAndNotify`
invocation (read, decide, the outbound `sms.Send` call and the state
update), so the concurrent goroutines serialize into a batch. -/
theorem c2_exactly_one (thr : GoFloat) (st : GuardState) (n0 : Nat)
    (evals : List Eval)
    (hne : evals ≠ [])
    (hlv : ∀ e ∈ evals, GoFloat.lt e.level thr = false)
    (hok : ∀ e ∈ evals, e.sendOk = true)
    (hwin : ∀ e ∈ evals, n0 ≤ e.time ∧ e.time < n0 + 3600)
    (hcd : st.lastNotifiedAt + 3600 ≤ n0) :
    countSent (runEvals (.valid thr) st evals).2 = 1 := by
  cases evals with
  | nil => exact absurd rfl hne
  | cons e es =>
    have he_lv := hlv e (List.mem_cons_self e es)
    have he_ok := hok e (List.mem_cons_self e es)
    have he_win := hwin e (List.mem_cons_self e es)
    have hfire := checkAndNotify_fire_true thr e.level e.time st he_lv (by omega)
    have hrest := runEvals_skips (.valid thr) ⟨e.time⟩ es (fun e' he' => by
      have h1 := (hwin e' (List.mem_cons_of_mem e he')).2
      show e'.time < e.time + 3600
      omega)
    simp only [runEvals, he_ok, hfire, hrest]
    simp only [countSent, List.filter_cons, Decision.isSent, if_pos,
      List.length_cons, countSent_map_skip, Nat.add_left_eq_self]
    exact countSent_map_skip es

/-- C2 (witness): three concurrent above-threshold evaluations inside one
window (times 5000, 5600, 6000) from the initial state dispatch exactly
one notification. -/
theorem c2_witness :
    countSent (runEvals (.valid (.finite 10)) ⟨0⟩
      [⟨.finite 12, 5000, true⟩, ⟨.finite 15, 5600, true⟩,
        ⟨.finite 11, 6000, true⟩]).2 = 1 :=
  c2_exactly_one (.finite 10) ⟨0⟩ 5000 _ (by simp) (by decide) (by decide)
    (by decide) (by decide)

/-- C3 (counterexample): appending positive infinity — a non-finite
level — succeeds and inserts a row, rather than failing with the Invalid
store error: `saveLevelData` performs no finiteness validation, and
SQLite binds an infinite double as a REAL value and persists it. -/
theorem c3_counterexample :
    saveLevelData true GoFloat.posInf 5 emptyStore = .ok ⟨[⟨1, .posInf, 5⟩], 2⟩
    ∧ GoFloat.posInf.isFinite = false :=
  ⟨rfl, rfl⟩

/-- C3 (amended): `saveLevelData` has no finiteness-validation path and
never produces the Invalid store error. The infinities are inserted
exactly like finite levels. Only NaN fails — not by a check in the code
but because SQLite binds a NaN double as NULL and the `level REAL NOT
NULL` column rejects the insert with a constraint error, creating no
row. -/
theorem c3_append_no_validation (level : GoFloat) (now : Nat) (s : Store) :
    (level ≠ .nan → saveLevelData true level now s
        = .ok ⟨s.rows ++ [⟨s.nextId, level, now⟩], s.nextId + 1⟩)
    ∧ (level = .nan → saveLevelData true level now s
        = .error "failed to insert data: NOT NULL constraint failed: level_data.level") := by
  constructor
  · intro h
    simp [saveLevelData, h]
  · intro h
    simp [saveLevelData, h]

/-- C3 (witness): negative infinity inserts as a row; NaN fails with the
constraint error and inserts nothing. -/
theorem c3_witness :
    saveLevelData true GoFloat.negInf 7 emptyStore = .ok ⟨[⟨1, .negInf, 7⟩], 2⟩
    ∧ saveLevelData true GoFloat.nan 7 emptyStore
        = .error "failed to insert data: NOT NULL constraint failed: level_data.level" :=
  ⟨(c3_append_no_validation GoFloat.negInf 7 emptyStore).1 (by decide),
    (c3_append_no_validation GoFloat.nan 7 emptyStore).2 rfl⟩

/-- C4 (counterexample): with two rows sharing `created_at = 50` (ids 1
and 2, levels 1 and 2), the latest-query returns level 1 — the row with
the smaller id — not level 2 from the larger id as the claim requires:
the query orders by `created_at` only and has no id tiebreak. -/
theorem c4_counterexample :
    getLatestLevelData ⟨[⟨1, .finite 1, 50⟩, ⟨2, .finite 2, 50⟩], 3⟩
      = .ok (.finite 1)
    ∧ GoFloat.finite 1 ≠ GoFloat.finite 2 :=
  ⟨rfl, by decide⟩

/-- C4 (amended): on a non-empty store the latest-query returns the level
of a row whose `created_at` is maximal; which row wins a `created_at` tie
is not guaranteed by the query (no id term in its ORDER BY) — in a table
scan it is the first-inserted, not the larger id. -/
theorem c4_latest_max_created_at (s : Store) (r0 : Reading) (rs : List Reading)
    (h : s.rows = r0 :: rs) :
    ∃ r, r ∈ s.rows ∧ getLatestLevelData s = .ok r.level
      ∧ ∀ x ∈ s.rows, x.created_at ≤ r.created_at := by
  refine ⟨rs.foldl pickLater r0, ?_, ?_, ?_⟩
  · rw [h]
    exact foldl_pickLater_mem rs r0
  · simp [getLatestLevelData, latestRow, h]
  · rw [h]
    exact fun x hx => foldl_pickLater_le rs r0 x hx

/-- C4 (witness): the amended statement on a concrete one-row store. -/
theorem c4_witness :
    ∃ r, r ∈ (⟨[⟨1, .finite 7, 9⟩], 2⟩ : Store).rows
      ∧ getLatestLevelData ⟨[⟨1, .finite 7, 9⟩], 2⟩ = .ok r.level
      ∧ ∀ x ∈ (⟨[⟨1, .finite 7, 9⟩], 2⟩ : Store).rows,
          x.created_at ≤ r.created_at :=
  c4_latest_max_created_at ⟨[⟨1, .finite 7, 9⟩], 2⟩ ⟨1, .finite 7, 9⟩ [] rfl

/-- C5: after any non-empty sequence of successful sequential posts of
finite levels — the clock strictly advancing between posts and past every
preexisting row — `GET /api/level` answers 200 with the level of the most
recent post; in particular one post followed by the query round-trips the
level. (The claim quantifies over finite levels; a JSON body cannot carry
a non-finite number anyway.) -/
theorem c5_roundtrip (posts : List (GoFloat × Nat)) (s : Store)
    (hfin : ∀ p ∈ posts, (p.1).isFinite = true)
    (hinc : List.Pairwise (fun a b => a.2 < b.2) posts)
    (hrows : ∀ r ∈ s.rows, ∀ p ∈ posts, r.created_at < p.2)
    (lastP : GoFloat × Nat) (hlast : posts.getLast? = some lastP) :
    handleGetLevelData .get (applyPosts posts s) = (200, .ok lastP.1) :=
  handleGet_ok _ _ (getLatest_applyPosts posts s
    (fun p hp => isFinite_ne_nan p.1 (hfin p hp)) hinc hrows lastP hlast)

/-- C5 (witness): posting levels 1 then 2 into the empty store and
querying returns 2. -/
theorem c5_witness :
    handleGetLevelData .get
      (applyPosts [(.finite 1, 100), (.finite 2, 200)] emptyStore)
      = (200, .ok (.finite 2)) :=
  c5_roundtrip [(.finite 1, 100), (.finite 2, 200)] emptyStore (by decide)
    (by decide) (by simp [emptyStore]) (.finite 2, 200) rfl

/-- C6: with a configured threshold and the hour cooldown, an
above-threshold reading whose send succeeds fires exactly when the
cooldown has elapsed (first reading fires, a reading within the hour of
the last notification skips, a reading after the hour fires again), and —
for every batch from every state — two successful notifications never
fire less than one hour apart. -/
theorem c6_cooldown :
    (∀ (thr l : GoFloat) (now : Nat) (st : GuardState),
        GoFloat.lt l thr = false →
        checkAndNotify (.valid thr) true l now st
          = if st.lastNotifiedAt + 3600 ≤ now
            then (⟨now⟩, .notifySent (alertMessage l thr))
            else (st, .skip))
    ∧ (∀ (cfg : ThresholdCfg) (st : GuardState) (evals : List Eval),
        List.Chain' (fun a b => a + 3600 ≤ b) (runSentTimes cfg st evals)) := by
  constructor
  · intro thr l now st hlt
    by_cases hcd : st.lastNotifiedAt + 3600 ≤ now
    · rw [if_pos hcd]
      exact checkAndNotify_fire_true thr l now st hlt hcd
    · rw [if_neg hcd]
      exact checkAndNotify_skip_of_recent _ _ _ _ _ (by omega)
  · intro cfg st evals
    exact runSentTimes_chain cfg evals st

/-- C6 (witness): the firing characterization at threshold 10, level 12,
time 7200 from the initial state, and the hour separation on a concrete
three-reading batch. -/
theorem c6_witness :
    (checkAndNotify (.valid (.finite 10)) true (.finite 12) 7200 ⟨0⟩
      = if (⟨0⟩ : GuardState).lastNotifiedAt + 3600 ≤ 7200
        then (⟨7200⟩, .notifySent (alertMessage (.finite 12) (.finite 10)))
        else (⟨0⟩, .skip))
    ∧ List.Chain' (fun a b => a + 3600 ≤ b)
        (runSentTimes (.valid (.finite 10)) ⟨0⟩
          [⟨.finite 12, 7200, true⟩, ⟨.finite 15, 7300, true⟩,
            ⟨.finite 11, 11000, true⟩]) :=
  ⟨c6_cooldown.1 (.finite 10) (.finite 12) 7200 ⟨0⟩ rfl,
    c6_cooldown.2 (.valid (.finite 10)) ⟨0⟩ _⟩

/-- C7: a `POST /api` with a malformed JSON body answers 400 with
`Invalid JSON`, the store is returned unchanged, and no background guard
evaluation is spawned — the rejection happens before any store access. -/
theorem c7_malformed_rejected (dbOk : Bool) (now : Nat) (s : Store) :
    handleSaveLevelData .post .malformed dbOk now s
      = ⟨400, .error "Invalid JSON", s, none⟩ := rfl

/-- C8: on an empty store the latest-query fails with the
`no level data found` error (the Empty store error) and `GET /api/level`
answers 500 with `Failed to get level data` — never a default value. -/
theorem c8_empty_store_error (s : Store) (h : s.rows = []) :
    getLatestLevelData s = .error "no level data found"
    ∧ handleGetLevelData .get s = (500, .error "Failed to get level data") := by
  have h1 : getLatestLevelData s = .error "no level data found" := by
    simp [getLatestLevelData, latestRow, h]
  exact ⟨h1, by simp [handleGetLevelData, h1]⟩

/-- C8 (witness): the empty-store behavior on the freshly created store. -/
theorem c8_witness :
    getLatestLevelData emptyStore = .error "no level data found"
    ∧ handleGetLevelData .get emptyStore
        = (500, .error "Failed to get level data") :=
  c8_empty_store_error emptyStore rfl

/-- C9: a valid-JSON `POST /api` body without a `level` field, or with
`level: null`, is accepted: 200, message `Received and saved: 0.000000`,
a row with level 0 appended and level 0 handed to the spawned guard —
indistinguishable in the store from an explicit `level: 0`. -/
theorem c9_missing_level_defaults_zero (now : Nat) (s : Store) :
    handleSaveLevelData .post .emptyObj true now s
      = ⟨200, .ok ⟨"success", "Received and saved: 0.000000"⟩,
          ⟨s.rows ++ [⟨s.nextId, .finite 0, now⟩], s.nextId + 1⟩,
          some (.finite 0)⟩
    ∧ handleSaveLevelData .post .nullLevel true now s
        = handleSaveLevelData .post .emptyObj true now s
    ∧ (handleSaveLevelData .post .emptyObj true now s).store
        = (handleSaveLevelData .post (.withLevel (.finite 0)) true now s).store :=
  ⟨rfl, rfl, rfl⟩

/-- C10: with `LEVEL_THRESHOLD` present but unparseable, every guard
evaluation skips — no notification is dispatched and `lastNotifiedAt` is
unchanged — exactly as when the threshold is unset. -/
theorem c10_invalid_threshold_skips (sendOk : Bool) (l : GoFloat) (now : Nat)
    (st : GuardState) :
    checkAndNotify .invalid sendOk l now st = (st, .skip)
    ∧ checkAndNotify .invalid sendOk l now st
        = checkAndNotify .unset sendOk l now st :=
  ⟨rfl, rfl⟩

end Septic
